import Mathlib

/-!
Verification of the test orchestration and dialog-synchronization engine of a
declarative browser-test runner.  The JavaScript sources are shallowly
embedded: Playwright page/element effects become explicit state or event
traces, promises become eventual-settlement values supplied by a `World`
record, and `try`/`catch` control flow becomes `Except`.
-/

deriving instance DecidableEq for Except

/-- A JavaScript value as it reaches the step handlers from the YAML layer:
`undefined`, a boolean, or a string. -/
inductive JsVal where
  | undef
  | bool (b : Bool)
  | str (s : String)
deriving Repr, DecidableEq

/-- JavaScript truthiness for the values a step field can hold. -/
def JsVal.isTruthy : JsVal → Bool
  | .undef => false
  | .bool b => b
  | .str s => s ≠ ""

/-- Playwright `locator.check()`: ensures the checkbox is checked (it never
unchecks an already-checked element). -/
def pwCheck (_checked : Bool) : Bool := true

/-- Playwright `locator.uncheck()`: ensures the checkbox is unchecked. -/
def pwUncheck (_checked : Bool) : Bool := false

/-- The fields of a checkbox step consulted by the checkbox handlers:
`value` (may be absent) and `waitForNavigation`. -/
structure CheckboxStep where
  value : JsVal
  waitForNavigation : Bool
deriving Repr, DecidableEq

/-- `ActionHandler.checkWithNavigation` (lib/action-handler.js): with or
without the navigation wait, the element effect is `element.check()`. -/
def ActionHandler.checkWithNavigation (_step : CheckboxStep) (checked : Bool) : Bool :=
  pwCheck checked

/-- `ActionHandler.handleCheckbox` (lib/action-handler.js): reads
`element.isChecked()`; when `step.value` is declared it acts only on a
mismatch, otherwise it always acts; every action goes through
`checkWithNavigation`, i.e. `element.check()`.  Returns the new checked
state and the message logged. -/
def ActionHandler.handleCheckbox (step : CheckboxStep) (isChecked : Bool) : Bool × String :=
  if step.value ≠ JsVal.undef then
    if step.value.isTruthy ∧ ¬ isChecked then
      (ActionHandler.checkWithNavigation step isChecked, "Checked")
    else if ¬ step.value.isTruthy ∧ isChecked then
      (ActionHandler.checkWithNavigation step isChecked, "Unchecked")
    else
      (isChecked, "Already in desired state")
  else
    (ActionHandler.checkWithNavigation step isChecked,
      if isChecked then "Unchecked" else "Checked")

/-- Observable events of a handler invocation, in program order.  Arming a
wait (calling `page.waitForEvent` / `page.waitForNavigation`) is an event of
its own, distinct from the settlement of the awaited promise. -/
inductive Ev where
  | armDialogWait
  | findElementEv
  | issueClick
  | clickResolved
  | awaitClick
  | acceptDialog (promptText : Option String)
  | dismissDialog
  | captureDialogShot
  | armNavWait
  | navDone
  | listenerOn
  | listenerOff
  | shortWait (ms : Nat)
  | postWait (ms : Nat)
  | waitVisible (timeoutMs : Nat)
  | waitAttached (timeoutMs : Nat)
deriving Repr, DecidableEq

/-- A selector descriptor as the handlers receive it; the strategy field
(`by` in the source, a keyword in Lean) may be absent. -/
structure Selector where
  by_ : Option String
  value : String
deriving Repr, DecidableEq

/-- `ActionHandler.findElement` (lib/action-handler.js): a fixed switch over
the four strategies builds the locator string, an unrecognized strategy
throws before any wait, then the element is awaited in state `visible`
within the configured action timeout.  `visibleWithinTimeout` says whether
the element becomes visible before that timeout elapses. -/
def ActionHandler.findElement (sel : Selector) (visibleWithinTimeout : Bool)
    (actionTimeout : Nat) : List Ev × Except String String :=
  let afterWait : String → List Ev × Except String String := fun loc =>
    ([Ev.waitVisible actionTimeout],
      if visibleWithinTimeout then Except.ok loc
      else Except.error ("Timeout " ++ toString actionTimeout ++ "ms exceeded waiting for element to be visible"))
  match sel.by_ with
  | none => ([], Except.error "Unknown selector type: undefined")
  | some b =>
    if b = "id" then afterWait ("#" ++ sel.value)
    else if b = "name" then afterWait ("[name=\"" ++ sel.value ++ "\"]")
    else if b = "css" then afterWait sel.value
    else if b = "xpath" then afterWait ("xpath=" ++ sel.value)
    else ([], Except.error ("Unknown selector type: " ++ b))

/-- `ElementLocator.findElement` (src/infrastructure/element-locator.js): a
missing selector throws; a falsy strategy defaults to `css`; five strategies
are recognized (`css`, `xpath`, `name`, `button`, `id`); the element is
awaited in state `attached` with a fixed 5000 ms timeout, and a wait timeout
is rewrapped as an explicit element-not-found error. -/
def ElementLocator.findElement (sel : Option Selector) (attachedWithinTimeout : Bool) :
    List Ev × Except String String :=
  match sel with
  | none => ([], Except.error "Selector is required")
  | some s =>
    let rawBy := s.by_.getD "css"
    let b := if rawBy = "" then "css" else rawBy
    let locOrErr : Except String String :=
      if b = "css" then Except.ok s.value
      else if b = "xpath" then Except.ok ("xpath=" ++ s.value)
      else if b = "name" then Except.ok ("[name=\"" ++ s.value ++ "\"]")
      else if b = "button" then Except.ok ("button:has-text(\"" ++ s.value ++ "\")")
      else if b = "id" then Except.ok ("#" ++ s.value)
      else Except.error ("Unknown selector type: " ++ b)
    match locOrErr with
    | Except.error e => ([], Except.error e)
    | Except.ok loc =>
      ([Ev.waitAttached 5000],
        if attachedWithinTimeout then Except.ok loc
        else Except.error ("Element not found: " ++ b ++ "=\"" ++ s.value ++ "\". Error: timeout"))

/-- `CheckboxActionExecutor.execute`
(src/actions/executors/checkbox-action-executor.js): computes
`desiredValue = step.value === true || step.value === 'true'`, toggles only
on mismatch; without a navigation wait it uses `check`/`uncheck` as
appropriate, but the `waitForNavigation` branch always calls
`element.check(...)`. -/
def CheckboxActionExecutor.execute (step : CheckboxStep) (currentlyChecked : Bool) : Bool :=
  let desiredValue : Bool := step.value = JsVal.bool true ∨ step.value = JsVal.str "true"
  if currentlyChecked ≠ desiredValue then
    if step.waitForNavigation then
      pwCheck currentlyChecked
    else
      if desiredValue then pwCheck currentlyChecked else pwUncheck currentlyChecked
  else
    currentlyChecked

/-- The fields of a click step consulted by the click and dialog handlers. -/
structure ClickStep where
  selector : Selector
  waitForNavigation : Bool
  postNavigationWait : Nat
deriving Repr, DecidableEq

/-- The fields of a dialog step / dialog configuration.  `dialogType` is the
expected kind (absent means no validation); `action` is `accept` or
`dismiss`; `value` is the prompt text supplied on accept. -/
structure DialogStep where
  dialogType : Option String
  action : String
  value : Option String
  waitForNavigation : Bool
  postNavigationWait : Nat
deriving Repr, DecidableEq

/-- String interpolation of an optional field, as JavaScript template
literals render `undefined`. -/
def optStr (o : Option String) : String := o.getD "undefined"

/-- Truthiness of an optional dialog-type field, as used by the guard
`dialogStep.dialogType && ...`. -/
def dialogTypeDeclared (o : Option String) : Bool :=
  match o with
  | none => false
  | some t => t ≠ ""

/-- Whether the observed dialog kind violates the declared expectation. -/
def dialogTypeMismatch (declared : Option String) (observed : String) : Bool :=
  dialogTypeDeclared declared ∧ declared.getD "" ≠ observed

/-- The concurrent environment of one click-plus-dialog unit: the outcome of
the element lookup, the kind of the dialog observed by the armed wait within
the action timeout (`none` if the wait times out), the eventual settlement
of the click promise, and the settlement of a navigation wait. -/
structure DialogWorld where
  find : Except String Unit
  dialogEvent : Option String
  clickSettles : Except String Unit
  navSettles : Except String Unit
deriving Repr, DecidableEq

/-- The outcome of a coordinator invocation: its event trace in program
order, and its normal or exceptional completion. -/
structure DialogRun where
  trace : List Ev
  result : Except String Unit
deriving Repr, DecidableEq

/-- The dialog-resolution tail of `ActionHandler.executeStepWithDialog`:
validate the observed kind, accept (with prompt text when the dialog is a
prompt) or dismiss, wait 100 ms, then optionally wait for navigation and
apply the post-navigation delay (`clickStep` field first, `dialogStep`
field as fallback, both with JavaScript `||` falsiness). -/
def resolveDialogTail (clickStep : ClickStep) (dialogStep : DialogStep)
    (navSettles : Except String Unit) (dkind : String) (t : List Ev) : DialogRun :=
  if dialogTypeMismatch dialogStep.dialogType dkind then
    { trace := t,
      result := Except.error ("Dialog type mismatch: expected \"" ++ optStr dialogStep.dialogType ++ "\" but got \"" ++ dkind ++ "\"") }
  else if dialogStep.action = "accept" ∨ dialogStep.action = "dismiss" then
    let ev : Ev :=
      if dialogStep.action = "accept" then
        (if dkind = "prompt" then Ev.acceptDialog (some (dialogStep.value.getD ""))
         else Ev.acceptDialog none)
      else Ev.dismissDialog
    if clickStep.waitForNavigation ∨ dialogStep.waitForNavigation then
      match navSettles with
      | Except.error e =>
        { trace := t ++ [ev, Ev.shortWait 100, Ev.armNavWait], result := Except.error e }
      | Except.ok _ =>
        let post := if clickStep.postNavigationWait ≠ 0 then clickStep.postNavigationWait
                    else dialogStep.postNavigationWait
        { trace := t ++ ([ev, Ev.shortWait 100, Ev.armNavWait, Ev.navDone] ++
            (if post ≠ 0 then [Ev.postWait post] else [])),
          result := Except.ok () }
    else
      { trace := t ++ [ev, Ev.shortWait 100], result := Except.ok () }
  else
    { trace := t, result := Except.error ("Unknown dialog action: " ++ dialogStep.action) }

/-- `ActionHandler.executeStepWithDialog` (lib/action-handler.js): arms the
dialog wait, looks the element up, issues the click without awaiting it,
then awaits the dialog wait.  If the dialog wait times out it awaits the
click promise inside a `try` whose own `catch` also receives the
`Expected ... dialog did not appear after clicking` error thrown on click
success, so either way the raised error carries the
`Click failed and dialog did not appear:` prefix.  If the dialog is
observed, the click promise is never awaited. -/
def ActionHandler.executeStepWithDialog (clickStep : ClickStep) (dialogStep : DialogStep)
    (w : DialogWorld) : DialogRun :=
  let t0 : List Ev := [Ev.armDialogWait]
  match w.find with
  | Except.error e => { trace := t0 ++ [Ev.findElementEv], result := Except.error e }
  | Except.ok _ =>
    let t1 := t0 ++ [Ev.findElementEv, Ev.issueClick]
    match w.dialogEvent with
    | none =>
      let t2 := t1 ++ [Ev.awaitClick]
      match w.clickSettles with
      | Except.ok _ =>
        { trace := t2,
          result := Except.error ("Click failed and dialog did not appear: Expected " ++ optStr dialogStep.dialogType ++ " dialog did not appear after clicking") }
      | Except.error m =>
        { trace := t2,
          result := Except.error ("Click failed and dialog did not appear: " ++ m) }
    | some dkind => resolveDialogTail clickStep dialogStep w.navSettles dkind t1

/-- `DialogOrchestrator.executeWithDialog`
(src/actions/orchestrators/dialog-orchestrator.js): arms the dialog wait,
invokes the trigger action without awaiting it, then awaits the dialog
wait.  The timeout branch has the same self-caught `throw` as the
`ActionHandler` variant, with the `Action failed and dialog did not appear:`
prefix.  On observation: validate the kind, capture a dialog screenshot when
a handler is wired, resolve with `action || 'accept'` (accept passes no
prompt text here), and optionally await `waitForLoadState`. -/
def DialogOrchestrator.executeWithDialog (cfg : DialogStep) (hasShotHandler : Bool)
    (w : DialogWorld) : DialogRun :=
  let t1 : List Ev := [Ev.armDialogWait, Ev.issueClick]
  match w.dialogEvent with
  | none =>
    let t2 := t1 ++ [Ev.awaitClick]
    match w.clickSettles with
    | Except.ok _ =>
      { trace := t2,
        result := Except.error ("Action failed and dialog did not appear: Expected " ++ optStr cfg.dialogType ++ " dialog did not appear") }
    | Except.error m =>
      { trace := t2,
        result := Except.error ("Action failed and dialog did not appear: " ++ m) }
  | some dkind =>
    if dialogTypeMismatch cfg.dialogType dkind then
      { trace := t1,
        result := Except.error ("Dialog type mismatch: expected \"" ++ optStr cfg.dialogType ++ "\" but got \"" ++ dkind ++ "\"") }
    else
      let t2 := t1 ++ (if hasShotHandler then [Ev.captureDialogShot] else [])
      let action := if cfg.action = "" then "accept" else cfg.action
      if action = "accept" ∨ action = "dismiss" then
        let ev := if action = "accept" then Ev.acceptDialog none else Ev.dismissDialog
        if cfg.waitForNavigation then
          match w.navSettles with
          | Except.error e => { trace := t2 ++ [ev, Ev.armNavWait], result := Except.error e }
          | Except.ok _ =>
            { trace := t2 ++ [ev, Ev.armNavWait, Ev.navDone], result := Except.ok () }
        else
          { trace := t2 ++ [ev], result := Except.ok () }
      else
        { trace := t2, result := Except.error ("Unknown dialog action: " ++ action) }

/-- `ActionHandler.handleClick` (lib/action-handler.js): with
`waitForNavigation` the click is awaited to completion first and only then
is `page.waitForNavigation` called; the navigation wait is therefore armed
after the click has resolved.  Without the flag the click is simply
awaited. -/
def ActionHandler.handleClick (step : ClickStep) : List Ev :=
  if step.waitForNavigation then
    [Ev.issueClick, Ev.clickResolved, Ev.armNavWait, Ev.navDone] ++
      (if step.postNavigationWait ≠ 0 then [Ev.postWait step.postNavigationWait] else [])
  else
    [Ev.issueClick, Ev.clickResolved]

/-- `ClickActionExecutor.execute`
(src/actions/executors/click-action-executor.js): with `waitForNavigation`
the click and the wait run under `Promise.all`, whose argument list arms
`page.waitForNavigation` before `element.click` is issued; the optional
post-navigation delay applies in both branches. -/
def ClickActionExecutor.execute (step : ClickStep) : List Ev :=
  (if step.waitForNavigation then
    [Ev.armNavWait, Ev.issueClick, Ev.clickResolved, Ev.navDone]
  else
    [Ev.issueClick, Ev.clickResolved]) ++
  (if step.postNavigationWait ≠ 0 then [Ev.postWait step.postNavigationWait] else [])

/-- What became of one native dialog observed by a standing listener. -/
inductive DialogFate where
  | accepted (promptText : Option String)
  | acceptedExtra
  | dismissed
  | unresolved (reason : String)
deriving Repr, DecidableEq

/-- Fallback dialog step used only under a length guard. -/
def emptyDialogStep : DialogStep :=
  { dialogType := none, action := "", value := none,
    waitForNavigation := false, postNavigationWait := 0 }

/-- One invocation of the `dialogHandler` closure inside
`ActionHandler.executeStepWithMultipleDialogs` (lib/action-handler.js): a
dialog arriving after all declared ones is accepted without touching the
counter; otherwise the declared step at the current index is consumed (the
counter advances first), the kind is validated (a mismatch throws inside the
listener, leaving the dialog unresolved and the error unobserved by the main
flow), then the dialog is accepted (with prompt text when it is a prompt) or
dismissed; an unrecognized action likewise throws inside the listener. -/
def multiDialogHandler (dialogSteps : List DialogStep) (dialogCount : Nat)
    (dkind : String) : Nat × DialogFate :=
  if dialogCount ≥ dialogSteps.length then
    (dialogCount, DialogFate.acceptedExtra)
  else
    let ds := dialogSteps.getD dialogCount emptyDialogStep
    let c := dialogCount + 1
    if dialogTypeMismatch ds.dialogType dkind then
      (c, DialogFate.unresolved "type mismatch thrown in listener")
    else if ds.action = "accept" then
      (c, DialogFate.accepted (if dkind = "prompt" then some (ds.value.getD "") else none))
    else if ds.action = "dismiss" then
      (c, DialogFate.dismissed)
    else
      (c, DialogFate.unresolved "unknown action thrown in listener")

/-- Folds the `ActionHandler` standing listener over the dialogs that fire,
in arrival order, threading the counter. -/
def processArrivals (dialogSteps : List DialogStep) :
    Nat → List String → Nat × List DialogFate
  | c, [] => (c, [])
  | c, d :: rest =>
    let (c1, fate) := multiDialogHandler dialogSteps c d
    let (c2, fates) := processArrivals dialogSteps c1 rest
    (c2, fate :: fates)

/-- One invocation of the `dialogHandler` closure inside
`DialogOrchestrator.executeWithMultipleDialogs`
(src/actions/orchestrators/dialog-orchestrator.js): the counter always
advances; past the declared list the config read yields `undefined` and the
field access throws a `TypeError` inside the listener, leaving the dialog
unresolved; otherwise validate (a mismatch throws inside the listener),
optionally capture a screenshot, then resolve with `action || 'accept'`
(accept passes no prompt text); an action that is neither `accept` nor
`dismiss` silently resolves nothing. -/
def orchDialogHandler (configs : List DialogStep) (dialogCount : Nat)
    (dkind : String) : Nat × DialogFate :=
  let c := dialogCount + 1
  if dialogCount ≥ configs.length then
    (c, DialogFate.unresolved "TypeError thrown in listener")
  else
    let cfg := configs.getD dialogCount emptyDialogStep
    if dialogTypeMismatch cfg.dialogType dkind then
      (c, DialogFate.unresolved "type mismatch thrown in listener")
    else
      let action := if cfg.action = "" then "accept" else cfg.action
      if action = "accept" then (c, DialogFate.accepted none)
      else if action = "dismiss" then (c, DialogFate.dismissed)
      else (c, DialogFate.unresolved "no-op action")

/-- Folds the orchestrator standing listener over the dialogs that fire. -/
def processOrchArrivals (configs : List DialogStep) :
    Nat → List String → Nat × List DialogFate
  | c, [] => (c, [])
  | c, d :: rest =>
    let (c1, fate) := orchDialogHandler configs c d
    let (c2, fates) := processOrchArrivals configs c1 rest
    (c2, fate :: fates)

/-- How a multi-dialog flow ends: with a normal or exceptional completion,
or not at all (an unbounded wait that never exits). -/
inductive Settled where
  | done (r : Except String Unit)
  | hang
deriving Repr, DecidableEq

/-- The outcome of a multi-dialog coordinator invocation. -/
structure MultiRun where
  trace : List Ev
  fates : List DialogFate
  dialogCount : Nat
  result : Settled
  listenerRemoved : Bool
deriving Repr, DecidableEq

/-- The environment of one multi-dialog unit: element lookup outcome,
eventual settlement of the triggering click/action, and the kinds of the
dialogs that fire, in order. -/
structure MultiWorld where
  find : Except String Unit
  clickSettles : Except String Unit
  arrivals : List String
deriving Repr, DecidableEq

/-- `ActionHandler.executeStepWithMultipleDialogs` (lib/action-handler.js):
registers the standing listener, then inside `try`: element lookup, click
(with a navigation wait under `Promise.all` whose failure is swallowed by
`.catch`), a polling loop bounded by the action timeout for the remaining
dialogs, a `DialogCountMismatch`-style error when too few were handled, then
a short delay and a best-effort navigation wait whose own timeout is also
swallowed; the `finally` always removes the listener. -/
def ActionHandler.executeStepWithMultipleDialogs (_clickStep : ClickStep)
    (dialogSteps : List DialogStep) (w : MultiWorld) : MultiRun :=
  let t0 : List Ev := [Ev.listenerOn]
  match w.find with
  | Except.error e =>
    { trace := t0 ++ [Ev.findElementEv, Ev.listenerOff], fates := [], dialogCount := 0,
      result := Settled.done (Except.error e), listenerRemoved := true }
  | Except.ok _ =>
    let t1 := t0 ++ [Ev.findElementEv, Ev.issueClick]
    let (count, fates) := processArrivals dialogSteps 0 w.arrivals
    match w.clickSettles with
    | Except.error e =>
      { trace := t1 ++ [Ev.listenerOff], fates := fates, dialogCount := count,
        result := Settled.done (Except.error e), listenerRemoved := true }
    | Except.ok _ =>
      if count < dialogSteps.length then
        { trace := t1 ++ [Ev.listenerOff], fates := fates, dialogCount := count,
          result := Settled.done (Except.error
            ("Only " ++ toString count ++ "/" ++ toString dialogSteps.length ++ " dialogs were handled")),
          listenerRemoved := true }
      else
        { trace := t1 ++ [Ev.shortWait 200, Ev.listenerOff], fates := fates, dialogCount := count,
          result := Settled.done (Except.ok ()), listenerRemoved := true }

/-- `DialogOrchestrator.executeWithMultipleDialogs`
(src/actions/orchestrators/dialog-orchestrator.js): registers the standing
listener, awaits the trigger action inside `try`, then loops
`while (dialogCount < totalDialogs)` with no time bound: when fewer dialogs
fire than were declared the loop never exits, so the flow hangs and the
`finally` deregistration is never reached; on the paths that do exit the
listener is always removed. -/
def DialogOrchestrator.executeWithMultipleDialogs (configs : List DialogStep)
    (w : MultiWorld) : MultiRun :=
  let t1 : List Ev := [Ev.listenerOn, Ev.issueClick]
  let (count, fates) := processOrchArrivals configs 0 w.arrivals
  match w.clickSettles with
  | Except.error e =>
    { trace := t1 ++ [Ev.listenerOff], fates := fates, dialogCount := count,
      result := Settled.done (Except.error e), listenerRemoved := true }
  | Except.ok _ =>
    if count < configs.length then
      { trace := t1, fates := fates, dialogCount := count,
        result := Settled.hang, listenerRemoved := false }
    else
      { trace := t1 ++ [Ev.listenerOff], fates := fates, dialogCount := count,
        result := Settled.done (Except.ok ()), listenerRemoved := true }

/-- A typed step as the step loop sees it; only the kind tag drives the
click-plus-dialog pairing. -/
structure Step where
  type : String
deriving Repr, DecidableEq

/-- One per-step outcome record as pushed into `TestResult.steps`. -/
structure StepRecord where
  step : Nat
  status : String
deriving Repr, DecidableEq

/-- `TestExecutor.executeSteps` (src/core/test-executor.js, identical to
`TestEngine.executeSteps` in test-engine.js): walks the step list with a
cursor; a click step immediately followed by a dialog step is executed as
one unit and, on success, appends two `passed` records and advances the
cursor by two; any other step appends one `passed` record on success; the
first error aborts the loop before any record for the failing unit is
appended.  `outcome i` is the result of executing the unit that starts at
zero-based index `i`. -/
def TestExecutor.executeSteps (outcome : Nat → Except String Unit) :
    List Step → Nat → List StepRecord × Except String Unit
  | [], _ => ([], Except.ok ())
  | [_s], i =>
    match outcome i with
    | Except.error e => ([], Except.error e)
    | Except.ok _ => ([⟨i + 1, "passed"⟩], Except.ok ())
  | s :: s2 :: rest, i =>
    if s.type = "click" ∧ s2.type = "dialog" then
      match outcome i with
      | Except.error e => ([], Except.error e)
      | Except.ok _ =>
        let (rs, r) := TestExecutor.executeSteps outcome rest (i + 2)
        (⟨i + 1, "passed"⟩ :: ⟨i + 2, "passed"⟩ :: rs, r)
    else
      match outcome i with
      | Except.error e => ([], Except.error e)
      | Except.ok _ =>
        let (rs, r) := TestExecutor.executeSteps outcome (s2 :: rest) (i + 1)
        (⟨i + 1, "passed"⟩ :: rs, r)

/-- The screenshot-related configuration flags consulted by the runner. -/
structure ShotsConfig where
  captureBeforeSubmit : Bool
  captureAfterSubmit : Bool
  captureOnFailure : Bool
  captureDialogs : Bool
deriving Repr, DecidableEq

/-- The execution configuration consulted by the runner. -/
structure ExecConfig where
  stopOnFailure : Bool
  shots : ShotsConfig
deriving Repr, DecidableEq

/-- One test case as the runner sees it. -/
structure TestCase where
  name : String
  steps : List Step
deriving Repr, DecidableEq

/-- The environment of one runner invocation: outcomes of navigation, of
each step unit, of the three screenshot captures (`ok` carries the artifact
path), of the submit action and the assertions, and the dialog-screenshot
paths collected afterwards. -/
structure ExecWorld where
  nav : Except String Unit
  stepOutcome : Nat → Except String Unit
  shotBefore : Except String String
  submit : Except String Unit
  shotAfter : Except String String
  assertions : Except String Unit
  shotFailure : Except String String
  dialogShots : List String

/-- A TestResult as assembled by the runner. -/
structure TestResult where
  name : String
  status : String
  steps : List StepRecord
  error : Option String
  screenshots : List String
  hierarchyLevel : Nat
  skippedNavigation : Bool
deriving Repr, DecidableEq

/-- The `try` body of `TestExecutor.executeTestCase`
(src/core/test-executor.js): navigate (or prepare the child test), run the
steps, optionally capture the before-submit screenshot, submit, optionally
capture the after-submit screenshot, run the assertions.  Returns the step
records and success-path screenshots accumulated so far together with the
body's completion.  Both capture calls sit inside the `try`, so a capture
error is the body's error. -/
def TestExecutor.runBody (cfg : ExecConfig) (w : ExecWorld) (tc : TestCase)
    (skipNavigation : Bool) : List StepRecord × List String × Except String Unit :=
  match (if skipNavigation then Except.ok () else w.nav) with
  | Except.error e => ([], [], Except.error e)
  | Except.ok _ =>
    let (recs, stepRes) := TestExecutor.executeSteps w.stepOutcome tc.steps 0
    match stepRes with
    | Except.error e => (recs, [], Except.error e)
    | Except.ok _ =>
      match (if cfg.shots.captureBeforeSubmit then w.shotBefore.map (fun p => [p]) else Except.ok []) with
      | Except.error e => (recs, [], Except.error e)
      | Except.ok shots1 =>
        match w.submit with
        | Except.error e => (recs, shots1, Except.error e)
        | Except.ok _ =>
          match (if cfg.shots.captureAfterSubmit then w.shotAfter.map (fun p => [p]) else Except.ok []) with
          | Except.error e => (recs, shots1, Except.error e)
          | Except.ok shots2 =>
            match w.assertions with
            | Except.error e => (recs, shots1 ++ shots2, Except.error e)
            | Except.ok _ => (recs, shots1 ++ shots2, Except.ok ())

/-- `TestExecutor.executeTestCase` (src/core/test-executor.js): runs the
`try` body; on success the result is marked `passed`.  The `catch` marks the
result `failed`, records the error message, and, when `captureOnFailure` is
set, pushes the failure screenshot with NO local error handling, so a
capture error propagates out of the runner; `stopOnFailure` rethrows the
original error.  Dialog screenshots are collected on the non-throwing
returns when `captureDialogs` is set. -/
def TestExecutor.executeTestCase (cfg : ExecConfig) (w : ExecWorld) (tc : TestCase)
    (hierarchyLevel : Nat) (skipNavigation : Bool) : Except String TestResult :=
  let base : TestResult :=
    { name := tc.name, status := "pending", steps := [], error := none,
      screenshots := [], hierarchyLevel := hierarchyLevel, skippedNavigation := skipNavigation }
  let dialogExtra := if cfg.shots.captureDialogs then w.dialogShots else []
  match TestExecutor.runBody cfg w tc skipNavigation with
  | (recs, shots, Except.ok _) =>
    Except.ok { base with status := "passed", steps := recs, screenshots := shots ++ dialogExtra }
  | (recs, shots, Except.error e) =>
    if cfg.shots.captureOnFailure then
      match w.shotFailure with
      | Except.error se => Except.error se
      | Except.ok p =>
        if cfg.stopOnFailure then Except.error e
        else Except.ok
          { base with
              status := "failed", steps := recs, error := some e,
              screenshots := shots ++ [p] ++ dialogExtra }
    else
      if cfg.stopOnFailure then Except.error e
      else Except.ok
        { base with
            status := "failed", steps := recs, error := some e,
            screenshots := shots ++ dialogExtra }

/-- How one call of the engine's `executeTestCase` wrapper ends, as the
hierarchy walker observes it: a normal return carrying the result status
(the wrapper has then appended exactly one entry to the run-wide result
list), or a thrown error (nothing appended by the wrapper). -/
inductive CaseExec where
  | ret (status : String)
  | thr (msg : String)
deriving Repr, DecidableEq

/-- One entry of the run-wide result list, reduced to the fields the walker
consults. -/
structure ResultEntry where
  name : String
  status : String
deriving Repr, DecidableEq

/-- A node of the hierarchical execution tree. -/
inductive TestNode where
  | node (name : String) (testCase : TestCase) (children : List TestNode)
deriving Repr

mutual
/-- `TestEngine.executeYamlTestNode` (src/core/test-engine.js): executes the
node's own test case; a non-`passed` status returns `false` before any child
runs.  A thrown error is caught at the node boundary: a failure entry is
synthesized unless an entry with the node's name already exists (then only
its screenshot list is extended), and `false` is returned.  Only when the
node passed are the children walked, each with `skipNavigation = true`, with
`stopOnChildFailure` breaking the sibling loop.  Returns the updated result
list, the names of the test cases actually executed (in order), and the
node's pass flag. -/
def TestEngine.executeYamlTestNode (exec : TestCase → CaseExec) (stopOnChildFailure : Bool) :
    TestNode → List ResultEntry → List ResultEntry × List String × Bool
  | TestNode.node name tc children, results =>
    match exec tc with
    | CaseExec.ret st =>
      if st = "passed" then
        let (rs, ex) := TestEngine.executeChildren exec stopOnChildFailure children
          (results ++ [⟨name, st⟩])
        (rs, name :: ex, true)
      else
        (results ++ [⟨name, st⟩], [name], false)
    | CaseExec.thr _msg =>
      if results.any (fun r => r.name = name) then
        (results, [name], false)
      else
        (results ++ [⟨name, "failed"⟩], [name], false)

/-- The sibling loop of `TestEngine.executeYamlTestNode`: walks each child
at the next level, breaking early when a child fails and
`stopOnChildFailure` is set. -/
def TestEngine.executeChildren (exec : TestCase → CaseExec) (stopOnChildFailure : Bool) :
    List TestNode → List ResultEntry → List ResultEntry × List String
  | [], results => (results, [])
  | c :: rest, results =>
    let (rs, ex, passed) := TestEngine.executeYamlTestNode exec stopOnChildFailure c results
    if ¬ passed ∧ stopOnChildFailure then (rs, ex)
    else
      let (rs2, ex2) := TestEngine.executeChildren exec stopOnChildFailure rest rs
      (rs2, ex ++ ex2)
end

/-- C6: the claim says a checkbox step is idempotent and that after its
first application the checked state equals the step's target.  The code
contradicts its own log message: on the uncheck paths it calls Playwright
`element.check()` (which ensures the element is CHECKED) while logging
`Unchecked`, so a step declaring `value: false` applied to a checked
element leaves it checked — the state never reaches the declared target.
The same slip sits in the `waitForNavigation` branch of
`CheckboxActionExecutor.execute`, while its plain branch correctly uses
`uncheck`. -/
theorem checkbox_uncheck_leaves_checked :
    ActionHandler.handleCheckbox ⟨JsVal.bool false, false⟩ true = (true, "Unchecked") ∧
    CheckboxActionExecutor.execute ⟨JsVal.bool false, true⟩ true = true ∧
    CheckboxActionExecutor.execute ⟨JsVal.bool false, false⟩ true = false := by
  refine ⟨?_, ?_, ?_⟩ <;> decide

/-- C8 counterexample: `ElementLocator.findElement` accepts the strategy
`button` (mapping it to a `button:has-text` locator) instead of raising an
unknown-strategy error, so selector resolution does not accept exactly the
four strategies id, name, css, xpath. -/
theorem element_locator_accepts_button_cex :
    (ElementLocator.findElement (some ⟨some "button", "OK"⟩) true).2 =
      Except.ok "button:has-text(\"OK\")" ∧
    ¬ ("button" = "id" ∨ "button" = "name" ∨ "button" = "css" ∨ "button" = "xpath") := by
  exact ⟨rfl, by decide⟩

/-- C8 (amended): `ActionHandler.findElement` accepts exactly id, name,
css, xpath, raising the unknown-strategy error before any wait for an
unrecognized (or absent) strategy, and raising an explicit timeout error
(never a silent null) when the element does not become visible within the
configured action timeout.  `ElementLocator.findElement` behaves the same
way except that it additionally accepts `button`, treats an absent or empty
strategy as `css`, and waits for attachment within a fixed 5000 ms timeout,
rewrapping the timeout as an explicit element-not-found error. -/
theorem selector_resolution_strategies :
    (∀ (sel : Selector) (vis : Bool) (t : Nat) (b : String), sel.by_ = some b →
      b ≠ "id" → b ≠ "name" → b ≠ "css" → b ≠ "xpath" →
      ActionHandler.findElement sel vis t =
        ([], Except.error ("Unknown selector type: " ++ b))) ∧
    (∀ (sel : Selector) (vis : Bool) (t : Nat), sel.by_ = none →
      ActionHandler.findElement sel vis t =
        ([], Except.error "Unknown selector type: undefined")) ∧
    (∀ (sel : Selector) (vis : Bool) (t : Nat) (b : String), sel.by_ = some b →
      (b = "id" ∨ b = "name" ∨ b = "css" ∨ b = "xpath") →
      (ActionHandler.findElement sel vis t).1 = [Ev.waitVisible t] ∧
      (vis = true → ∃ loc, (ActionHandler.findElement sel vis t).2 = Except.ok loc) ∧
      (vis = false → (ActionHandler.findElement sel vis t).2 =
        Except.error ("Timeout " ++ toString t ++ "ms exceeded waiting for element to be visible"))) ∧
    (∀ (v : String) (vis : Bool),
      ElementLocator.findElement (some ⟨none, v⟩) vis =
        ElementLocator.findElement (some ⟨some "css", v⟩) vis) ∧
    (∀ (v : String),
      (ElementLocator.findElement (some ⟨some "button", v⟩) true).2 =
        Except.ok ("button:has-text(\"" ++ v ++ "\")")) ∧
    (∀ (v : String) (vis : Bool) (b : String),
      b ≠ "" → b ≠ "css" → b ≠ "xpath" → b ≠ "name" → b ≠ "button" → b ≠ "id" →
      ElementLocator.findElement (some ⟨some b, v⟩) vis =
        ([], Except.error ("Unknown selector type: " ++ b))) ∧
    (∀ (v : String) (b : String),
      (b = "css" ∨ b = "xpath" ∨ b = "name" ∨ b = "button" ∨ b = "id") →
      (ElementLocator.findElement (some ⟨some b, v⟩) false).2 =
        Except.error ("Element not found: " ++ b ++ "=\"" ++ v ++ "\". Error: timeout")) := by
  refine ⟨?_, ?_, ?_, ?_, ?_, ?_, ?_⟩
  · intro sel vis t b hb h1 h2 h3 h4
    simp [ActionHandler.findElement, hb, h1, h2, h3, h4]
  · intro sel vis t hb
    simp [ActionHandler.findElement, hb]
  · intro sel vis t b hb hfour
    rcases hfour with h | h | h | h <;> subst h <;>
      simp [ActionHandler.findElement, hb] <;>
      cases vis <;> simp
  · intro v vis
    rfl
  · intro v
    rfl
  · intro v vis b h0 h1 h2 h3 h4 h5
    simp [ElementLocator.findElement, h0, h1, h2, h3, h4, h5]
  · intro v b hfive
    rcases hfive with h | h | h | h | h <;> subst h <;> rfl

/-- C8 witness: the amended statement applied at concrete inputs.  A
`select2` strategy is rejected before any wait by both resolvers, an id
lookup that never becomes visible fails with the explicit timeout error,
and `ElementLocator` accepts `button`. -/
theorem selector_resolution_strategies_witness :
    ActionHandler.findElement ⟨some "select2", "x"⟩ true 30000 =
      ([], Except.error "Unknown selector type: select2") ∧
    (ActionHandler.findElement ⟨some "id", "loginBtn"⟩ false 30000).2 =
      Except.error "Timeout 30000ms exceeded waiting for element to be visible" ∧
    (ElementLocator.findElement (some ⟨some "button", "Save"⟩) true).2 =
      Except.ok "button:has-text(\"Save\")" ∧
    (ElementLocator.findElement (some ⟨some "id", "loginBtn"⟩) false).2 =
      Except.error "Element not found: id=\"loginBtn\". Error: timeout" := by
  refine ⟨?_, ?_, ?_, ?_⟩
  · exact selector_resolution_strategies.1 ⟨some "select2", "x"⟩ true 30000 "select2" rfl
      (by decide) (by decide) (by decide) (by decide)
  · exact (selector_resolution_strategies.2.2.1 ⟨some "id", "loginBtn"⟩ false 30000 "id" rfl
      (Or.inl rfl)).2.2 rfl
  · exact selector_resolution_strategies.2.2.2.2.1 "Save"
  · exact selector_resolution_strategies.2.2.2.2.2.2 "loginBtn" "id"
      (Or.inr (Or.inr (Or.inr (Or.inr rfl))))

/-- A concrete click-plus-dialog unit for the dialog-timeout scenario. -/
def timeoutClickStep : ClickStep := ⟨⟨some "id", "deleteBtn"⟩, false, 0⟩

/-- A concrete dialog step expecting a confirm dialog to be accepted. -/
def timeoutDialogStep : DialogStep := ⟨some "confirm", "accept", none, false, 0⟩

/-- A world where the element is found, the click promise settles
successfully, but no dialog ever fires. -/
def timeoutWorld : DialogWorld := ⟨Except.ok (), none, Except.ok (), Except.ok ()⟩

/-- C3: the claim says that when the dialog wait times out and the
triggering action succeeded, the reported failure states only that the
expected dialog did not appear.  In both coordinator variants the `throw`
carrying that exact message sits inside the `try` that awaits the action,
so its own `catch` receives it and rewraps it: even though the click
settled successfully (third conjunct), the surfaced error opens with
`Click failed` / `Action failed`, misreporting the action's outcome. -/
theorem dialog_timeout_misreports_successful_click :
    (ActionHandler.executeStepWithDialog timeoutClickStep timeoutDialogStep timeoutWorld).result =
      Except.error
        "Click failed and dialog did not appear: Expected confirm dialog did not appear after clicking" ∧
    (DialogOrchestrator.executeWithDialog timeoutDialogStep false timeoutWorld).result =
      Except.error
        "Action failed and dialog did not appear: Expected confirm dialog did not appear" ∧
    timeoutWorld.clickSettles = Except.ok () ∧
    Ev.awaitClick ∈ (ActionHandler.executeStepWithDialog timeoutClickStep timeoutDialogStep timeoutWorld).trace := by
  refine ⟨rfl, rfl, rfl, ?_⟩
  decide

/-- A concrete click step that declares `waitForNavigation`. -/
def navClickStep : ClickStep := ⟨⟨some "id", "submitBtn"⟩, true, 0⟩

/-- C4 counterexample: in `ActionHandler.handleClick` the click is awaited
to completion first (trace index 1) and `page.waitForNavigation` is only
called afterwards (trace index 2), so for this step the navigation wait is
armed only after the click has completed — not before the click resolves
as the claim states for every click step. -/
theorem handleClick_arms_navigation_after_click_cex :
    navClickStep.waitForNavigation = true ∧
    (ActionHandler.handleClick navClickStep).indexOf Ev.clickResolved = 1 ∧
    (ActionHandler.handleClick navClickStep).indexOf Ev.armNavWait = 2 ∧
    ¬ ((ActionHandler.handleClick navClickStep).indexOf Ev.armNavWait <
        (ActionHandler.handleClick navClickStep).indexOf Ev.clickResolved) := by
  refine ⟨rfl, ?_, ?_, ?_⟩ <;> decide

/-- C4 (amended): the two step executors split.  In
`ClickActionExecutor.execute` the click and the navigation wait form one
atomic unit: `Promise.all` arms the navigation wait (index 0) before the
click is issued (index 1), hence before it resolves (index 2).  In
`ActionHandler.handleClick` the click is awaited first (indices 0,1) and
the navigation wait is only armed after it has resolved (index 2). -/
theorem click_navigation_arming_split (step : ClickStep)
    (h : step.waitForNavigation = true) :
    ((ClickActionExecutor.execute step).indexOf Ev.armNavWait = 0 ∧
     (ClickActionExecutor.execute step).indexOf Ev.issueClick = 1 ∧
     (ClickActionExecutor.execute step).indexOf Ev.clickResolved = 2) ∧
    ((ActionHandler.handleClick step).indexOf Ev.issueClick = 0 ∧
     (ActionHandler.handleClick step).indexOf Ev.clickResolved = 1 ∧
     (ActionHandler.handleClick step).indexOf Ev.armNavWait = 2) := by
  simp [ClickActionExecutor.execute, ActionHandler.handleClick, h, List.indexOf_cons,
    List.indexOf_nil]

/-- C4 witness: the amended statement at a concrete navigation-waiting
click step with a 500 ms post-navigation delay. -/
theorem click_navigation_arming_split_witness :
    ((ClickActionExecutor.execute ⟨⟨some "id", "go"⟩, true, 500⟩).indexOf Ev.armNavWait = 0 ∧
     (ClickActionExecutor.execute ⟨⟨some "id", "go"⟩, true, 500⟩).indexOf Ev.issueClick = 1 ∧
     (ClickActionExecutor.execute ⟨⟨some "id", "go"⟩, true, 500⟩).indexOf Ev.clickResolved = 2) ∧
    ((ActionHandler.handleClick ⟨⟨some "id", "go"⟩, true, 500⟩).indexOf Ev.issueClick = 0 ∧
     (ActionHandler.handleClick ⟨⟨some "id", "go"⟩, true, 500⟩).indexOf Ev.clickResolved = 1 ∧
     (ActionHandler.handleClick ⟨⟨some "id", "go"⟩, true, 500⟩).indexOf Ev.armNavWait = 2) :=
  click_navigation_arming_split ⟨⟨some "id", "go"⟩, true, 500⟩ rfl

/-- Whether an event resolves a native dialog (accept or dismiss). -/
def isDialogResolution : Ev → Bool
  | Ev.acceptDialog _ => true
  | Ev.dismissDialog => true
  | _ => false


/-- The dialog-resolution tail only ever extends the trace it is given, and
never awaits the click promise. -/
theorem resolveDialogTail_trace_split (cs : ClickStep) (ds : DialogStep)
    (ns : Except String Unit) (dkind : String) (t : List Ev) :
    ∃ u, (resolveDialogTail cs ds ns dkind t).trace = t ++ u ∧ Ev.awaitClick ∉ u := by
  cases ns <;>
    (unfold resolveDialogTail
     split_ifs <;>
       first
         | (refine ⟨_, rfl, ?_⟩; simp)
         | exact ⟨[], by simp, by simp⟩)

/-- When the observed kind passes validation and the declared action is
accept or dismiss, the dialog-resolution tail records an accept or a
dismiss of the dialog. -/
theorem resolveDialogTail_resolves (cs : ClickStep) (ds : DialogStep)
    (ns : Except String Unit) (dkind : String) (t : List Ev)
    (hm : dialogTypeMismatch ds.dialogType dkind = false)
    (ha : ds.action = "accept" ∨ ds.action = "dismiss") :
    (resolveDialogTail cs ds ns dkind t).trace.any isDialogResolution = true := by
  cases ns <;>
    (unfold resolveDialogTail
     split_ifs <;> simp_all [isDialogResolution])


/-- When a dialog is observed, the orchestrator's trace starts with arming
the dialog wait and issuing the action, and never awaits the action. -/
theorem orchWithDialog_trace_split (cfg : DialogStep) (hasShot : Bool)
    (f csett ns : Except String Unit) (dkind : String) :
    ∃ u, (DialogOrchestrator.executeWithDialog cfg hasShot ⟨f, some dkind, csett, ns⟩).trace =
      [Ev.armDialogWait, Ev.issueClick] ++ u ∧ Ev.awaitClick ∉ u := by
  cases ns <;>
    (simp only [DialogOrchestrator.executeWithDialog]
     split_ifs <;> (refine ⟨_, rfl, ?_⟩; simp))

/-- When a dialog is observed, passes validation, and the (defaulted)
action is accept or dismiss, the orchestrator resolves the dialog. -/
theorem orchWithDialog_resolves (cfg : DialogStep) (hasShot : Bool)
    (f csett ns : Except String Unit) (dkind : String)
    (hm : dialogTypeMismatch cfg.dialogType dkind = false)
    (ha : (if cfg.action = "" then "accept" else cfg.action) = "accept" ∨
      (if cfg.action = "" then "accept" else cfg.action) = "dismiss") :
    (DialogOrchestrator.executeWithDialog cfg hasShot ⟨f, some dkind, csett, ns⟩).trace.any
      isDialogResolution = true := by
  cases ns <;>
    (simp only [DialogOrchestrator.executeWithDialog]
     split_ifs <;> simp_all [isDialogResolution])

/-- C1: in both Dialog Coordinator variants the wait for the next dialog
event is armed strictly before the triggering click/action is issued
(trace position 0 versus 2, resp. 0 versus 1); when a dialog is observed
the coordinator never awaits the triggering action (`awaitClick` is absent
from the trace) and its behaviour is independent of how — or whether — the
action's own promise settles; and when the observed kind passes validation
and the declared action is accept or dismiss, the dialog is resolved. -/
theorem dialog_wait_armed_before_click :
    (∀ (clickStep : ClickStep) (dialogStep : DialogStep) (w : DialogWorld) (dkind : String),
      w.find = Except.ok () → w.dialogEvent = some dkind →
      ((ActionHandler.executeStepWithDialog clickStep dialogStep w).trace.indexOf Ev.armDialogWait = 0 ∧
       (ActionHandler.executeStepWithDialog clickStep dialogStep w).trace.indexOf Ev.issueClick = 2 ∧
       Ev.awaitClick ∉ (ActionHandler.executeStepWithDialog clickStep dialogStep w).trace ∧
       (∀ c, ActionHandler.executeStepWithDialog clickStep dialogStep
          { w with clickSettles := c } =
          ActionHandler.executeStepWithDialog clickStep dialogStep w) ∧
       (dialogTypeMismatch dialogStep.dialogType dkind = false →
        dialogStep.action = "accept" ∨ dialogStep.action = "dismiss" →
        (ActionHandler.executeStepWithDialog clickStep dialogStep w).trace.any
          isDialogResolution = true))) ∧
    (∀ (cfg : DialogStep) (hasShot : Bool) (w : DialogWorld) (dkind : String),
      w.dialogEvent = some dkind →
      ((DialogOrchestrator.executeWithDialog cfg hasShot w).trace.indexOf Ev.armDialogWait = 0 ∧
       (DialogOrchestrator.executeWithDialog cfg hasShot w).trace.indexOf Ev.issueClick = 1 ∧
       Ev.awaitClick ∉ (DialogOrchestrator.executeWithDialog cfg hasShot w).trace ∧
       (∀ c, DialogOrchestrator.executeWithDialog cfg hasShot { w with clickSettles := c } =
          DialogOrchestrator.executeWithDialog cfg hasShot w) ∧
       (dialogTypeMismatch cfg.dialogType dkind = false →
        (if cfg.action = "" then "accept" else cfg.action) = "accept" ∨
          (if cfg.action = "" then "accept" else cfg.action) = "dismiss" →
        (DialogOrchestrator.executeWithDialog cfg hasShot w).trace.any
          isDialogResolution = true))) := by
  constructor
  · intro clickStep dialogStep w dkind hfind hdlg
    obtain ⟨f, de, csett, ns⟩ := w
    simp only at hfind hdlg
    subst hfind
    subst hdlg
    obtain ⟨u, hu, hnu⟩ := resolveDialogTail_trace_split clickStep dialogStep ns dkind
      [Ev.armDialogWait, Ev.findElementEv, Ev.issueClick]
    have htrace : (ActionHandler.executeStepWithDialog clickStep dialogStep
        ⟨Except.ok (), some dkind, csett, ns⟩).trace =
        [Ev.armDialogWait, Ev.findElementEv, Ev.issueClick] ++ u := hu
    refine ⟨?_, ?_, ?_, ?_, ?_⟩
    · rw [htrace]; simp [List.indexOf_cons]
    · rw [htrace]; simp [List.indexOf_cons]
    · rw [htrace]; simp [List.mem_append]; exact hnu
    · intro c; rfl
    · intro hm ha
      exact resolveDialogTail_resolves clickStep dialogStep ns dkind
        [Ev.armDialogWait, Ev.findElementEv, Ev.issueClick] hm ha
  · intro cfg hasShot w dkind hdlg
    obtain ⟨f, de, csett, ns⟩ := w
    simp only at hdlg
    subst hdlg
    obtain ⟨u, hu, hnu⟩ := orchWithDialog_trace_split cfg hasShot f csett ns dkind
    refine ⟨?_, ?_, ?_, ?_, ?_⟩
    · rw [hu]; simp [List.indexOf_cons]
    · rw [hu]; simp [List.indexOf_cons]
    · rw [hu]; simp [List.mem_append]; exact hnu
    · intro c; rfl
    · intro hm ha
      exact orchWithDialog_resolves cfg hasShot f csett ns dkind hm ha

/-- A concrete click step for the dialog-race witness. -/
def armClickStep : ClickStep := ⟨⟨some "id", "confirmBtn"⟩, false, 0⟩

/-- A concrete dialog step expecting an accepted confirm dialog. -/
def armDialogStep : DialogStep := ⟨some "confirm", "accept", none, false, 0⟩

/-- A world where a confirm dialog fires while the click promise itself
settles with an error only after the dialog is resolved. -/
def armWorld : DialogWorld :=
  ⟨Except.ok (), some "confirm", Except.error "click blocked by dialog", Except.ok ()⟩

/-- C1 witness: the theorem applied at a concrete unit whose click promise
never settles successfully — the dialog is still observed and resolved, at
the positions the theorem states, and swapping the click settlement changes
nothing. -/
theorem dialog_wait_armed_before_click_witness :
    (ActionHandler.executeStepWithDialog armClickStep armDialogStep armWorld).trace.indexOf
      Ev.armDialogWait = 0 ∧
    (ActionHandler.executeStepWithDialog armClickStep armDialogStep armWorld).trace.indexOf
      Ev.issueClick = 2 ∧
    Ev.awaitClick ∉ (ActionHandler.executeStepWithDialog armClickStep armDialogStep armWorld).trace ∧
    ActionHandler.executeStepWithDialog armClickStep armDialogStep
      { armWorld with clickSettles := Except.ok () } =
      ActionHandler.executeStepWithDialog armClickStep armDialogStep armWorld ∧
    (ActionHandler.executeStepWithDialog armClickStep armDialogStep armWorld).trace.any
      isDialogResolution = true ∧
    (DialogOrchestrator.executeWithDialog armDialogStep true armWorld).trace.indexOf
      Ev.armDialogWait = 0 ∧
    (DialogOrchestrator.executeWithDialog armDialogStep true armWorld).trace.indexOf
      Ev.issueClick = 1 := by
  have h1 := dialog_wait_armed_before_click.1 armClickStep armDialogStep armWorld "confirm"
    rfl rfl
  have h2 := dialog_wait_armed_before_click.2 armDialogStep true armWorld "confirm" rfl
  exact ⟨h1.1, h1.2.1, h1.2.2.1, h1.2.2.2.1 (Except.ok ()),
    h1.2.2.2.2 (by decide) (Or.inl rfl), h2.1, h2.2.1⟩

/-- The fate of a dialog consumed against its declared step, as decided by
the `ActionHandler` standing listener. -/
def declaredFate (ds : DialogStep) (dkind : String) : DialogFate :=
  if dialogTypeMismatch ds.dialogType dkind then
    DialogFate.unresolved "type mismatch thrown in listener"
  else if ds.action = "accept" then
    DialogFate.accepted (if dkind = "prompt" then some (ds.value.getD "") else none)
  else if ds.action = "dismiss" then
    DialogFate.dismissed
  else
    DialogFate.unresolved "unknown action thrown in listener"

/-- Below the declared count, the standing listener consumes the declared
step at the current index and advances the counter by one. -/
theorem multiDialogHandler_lt (steps : List DialogStep) (c : Nat) (d : String)
    (h : c < steps.length) :
    multiDialogHandler steps c d = (c + 1, declaredFate (steps.getD c emptyDialogStep) d) := by
  have h2 : ¬ c ≥ steps.length := by omega
  unfold multiDialogHandler declaredFate
  simp only [h2, if_false, ite_false]
  split_ifs <;> rfl

/-- The counter after the standing listener has consumed a burst of
arrivals: it advances once per arrival and saturates at the declared
count. -/
theorem processArrivals_count (steps : List DialogStep) :
    ∀ (arr : List String) (c : Nat), c ≤ steps.length →
      (processArrivals steps c arr).1 = min (c + arr.length) steps.length := by
  intro arr
  induction arr with
  | nil => intro c hc; simp [processArrivals]; omega
  | cons d rest ih =>
    intro c hc
    by_cases h : c ≥ steps.length
    · have hred : multiDialogHandler steps c d = (c, DialogFate.acceptedExtra) := by
        unfold multiDialogHandler; simp [h]
      simp only [processArrivals, hred]
      rw [ih c hc]
      simp only [List.length_cons]
      omega
    · have hlt : c < steps.length := by omega
      simp only [processArrivals, multiDialogHandler_lt steps c d hlt]
      rw [ih (c + 1) (by omega)]
      simp only [List.length_cons]
      omega

/-- One fate is produced per arrival. -/
theorem processArrivals_length (steps : List DialogStep) :
    ∀ (arr : List String) (c : Nat),
      (processArrivals steps c arr).2.length = arr.length := by
  intro arr
  induction arr with
  | nil => intro c; simp [processArrivals]
  | cons d rest ih =>
    intro c
    rcases hh : multiDialogHandler steps c d with ⟨c1, fate⟩
    simp [processArrivals, hh, ih c1]

/-- Strict in-order consumption: the i-th arrival is matched against the
i-th declared dialog step (counting from the starting counter); arrivals
past the declared list are auto-accepted. -/
theorem processArrivals_getD (steps : List DialogStep) :
    ∀ (arr : List String) (c : Nat), c ≤ steps.length → ∀ i, i < arr.length →
      (processArrivals steps c arr).2.getD i (DialogFate.unresolved "") =
        (if c + i < steps.length then
          declaredFate (steps.getD (c + i) emptyDialogStep) (arr.getD i "")
         else DialogFate.acceptedExtra) := by
  intro arr
  induction arr with
  | nil => intro c hc i hi; simp at hi
  | cons d rest ih =>
    intro c hc i hi
    by_cases h : c ≥ steps.length
    · have hred : multiDialogHandler steps c d = (c, DialogFate.acceptedExtra) := by
        unfold multiDialogHandler; simp [h]
      cases i with
      | zero =>
        simp only [processArrivals, hred, List.getD_cons_zero]
        rw [if_neg (by omega)]
      | succ j =>
        have hj : j < rest.length := by simpa using hi
        simp only [processArrivals, hred, List.getD_cons_succ]
        rw [ih c hc j hj, if_neg (by omega), if_neg (by omega)]
    · have hlt : c < steps.length := by omega
      cases i with
      | zero =>
        simp only [processArrivals, multiDialogHandler_lt steps c d hlt,
          List.getD_cons_zero]
        rw [if_pos (by omega)]
        simp
      | succ j =>
        have hj : j < rest.length := by simpa using hi
        simp only [processArrivals, multiDialogHandler_lt steps c d hlt,
          List.getD_cons_succ]
        rw [ih (c + 1) (by omega) j hj]
        have harith : c + 1 + j = c + (j + 1) := by omega
        rw [harith]

/-- The orchestrator's counter advances on every arrival without
saturation. -/
theorem processOrchArrivals_count (configs : List DialogStep) :
    ∀ (arr : List String) (c : Nat),
      (processOrchArrivals configs c arr).1 = c + arr.length := by
  intro arr
  induction arr with
  | nil => intro c; simp [processOrchArrivals]
  | cons d rest ih =>
    intro c
    have hone : (orchDialogHandler configs c d).1 = c + 1 := by
      unfold orchDialogHandler; dsimp only; split_ifs <;> rfl
    rcases hh : orchDialogHandler configs c d with ⟨c1, fate⟩
    have hc1 : c1 = c + 1 := by rw [hh] at hone; exact hone
    subst hc1
    simp only [processOrchArrivals, hh]
    rcases hp : processOrchArrivals configs (c + 1) rest with ⟨c2, fates⟩
    have := ih (c + 1)
    rw [hp] at this
    simp only [this, List.length_cons]
    omega

/-- A single declared confirm dialog for the orchestrator hang scenario. -/
def hangConfigs : List DialogStep := [⟨some "confirm", "accept", none, false, 0⟩]

/-- A world where the trigger action completes but no dialog ever fires. -/
def hangWorld : MultiWorld := ⟨Except.ok (), Except.ok (), []⟩

/-- C5 counterexample: with one declared dialog and none arriving, the
orchestrator's `while (dialogCount < totalDialogs)` loop has no time bound:
the flow hangs instead of failing with a dialog-count error, and the
listener deregistration in `finally` is never reached — falsifying both the
timeout clause and the every-exit-path deregistration clause of the claim
for this coordinator variant. -/
theorem orchestrator_multi_dialog_hangs_cex :
    (DialogOrchestrator.executeWithMultipleDialogs hangConfigs hangWorld).result = Settled.hang ∧
    (DialogOrchestrator.executeWithMultipleDialogs hangConfigs hangWorld).listenerRemoved = false := by
  exact ⟨rfl, rfl⟩

/-- C5 (amended): the `ActionHandler` multi-dialog flow satisfies the whole
claim — one standing listener installed before the click (trace positions 0
and 2), strictly in-order consumption of arrivals against the declared
steps, a `Only k/n dialogs were handled` error when the click completes and
the bounded wait elapses with arrivals missing, and listener deregistration
on every exit path (its outcome is never a hang).  The
`DialogOrchestrator` variant installs the listener first and deregisters it
on every terminating path, but its wait for outstanding dialogs has no
timeout: when the action completes before all declared dialogs have fired
it hangs forever, raises no dialog-count error, and never reaches the
deregistration. -/
theorem multi_dialog_listener_protocol :
    (∀ (clickStep : ClickStep) (steps : List DialogStep) (w : MultiWorld),
      ((ActionHandler.executeStepWithMultipleDialogs clickStep steps w).trace.indexOf
        Ev.listenerOn = 0) ∧
      (w.find = Except.ok () →
        (ActionHandler.executeStepWithMultipleDialogs clickStep steps w).trace.indexOf
          Ev.issueClick = 2) ∧
      (w.find = Except.ok () → w.clickSettles = Except.ok () →
        w.arrivals.length < steps.length →
        (ActionHandler.executeStepWithMultipleDialogs clickStep steps w).result =
          Settled.done (Except.error ("Only " ++ toString w.arrivals.length ++ "/" ++
            toString steps.length ++ " dialogs were handled"))) ∧
      ((ActionHandler.executeStepWithMultipleDialogs clickStep steps w).listenerRemoved = true) ∧
      ((ActionHandler.executeStepWithMultipleDialogs clickStep steps w).result ≠ Settled.hang) ∧
      (w.find = Except.ok () → ∀ i, i < w.arrivals.length →
        (ActionHandler.executeStepWithMultipleDialogs clickStep steps w).fates.getD i
          (DialogFate.unresolved "") =
          (if i < steps.length then
            declaredFate (steps.getD i emptyDialogStep) (w.arrivals.getD i "")
           else DialogFate.acceptedExtra))) ∧
    (∀ (configs : List DialogStep) (w : MultiWorld),
      ((DialogOrchestrator.executeWithMultipleDialogs configs w).trace.indexOf
        Ev.listenerOn = 0) ∧
      (w.clickSettles = Except.ok () → w.arrivals.length < configs.length →
        (DialogOrchestrator.executeWithMultipleDialogs configs w).result = Settled.hang ∧
        (DialogOrchestrator.executeWithMultipleDialogs configs w).listenerRemoved = false) ∧
      ((DialogOrchestrator.executeWithMultipleDialogs configs w).result ≠ Settled.hang →
        (DialogOrchestrator.executeWithMultipleDialogs configs w).listenerRemoved = true)) := by
  constructor
  · intro clickStep steps w
    obtain ⟨f, csett, arr⟩ := w
    rcases hp : processArrivals steps 0 arr with ⟨count, fates⟩
    have hcount : count = min arr.length steps.length := by
      have := processArrivals_count steps arr 0 (Nat.zero_le _)
      rw [hp] at this
      simpa using this
    cases f with
    | error e =>
      refine ⟨by simp [ActionHandler.executeStepWithMultipleDialogs, List.indexOf_cons],
        ?_, ?_, rfl, by simp [ActionHandler.executeStepWithMultipleDialogs], ?_⟩
      · intro h; exact absurd h (by simp)
      · intro h; exact absurd h (by simp)
      · intro h; exact absurd h (by simp)
    | ok u =>
      cases csett with
      | error e =>
        refine ⟨?_, ?_, ?_, ?_, ?_, ?_⟩
        · simp [ActionHandler.executeStepWithMultipleDialogs, hp, List.indexOf_cons]
        · intro _
          simp [ActionHandler.executeStepWithMultipleDialogs, hp, List.indexOf_cons]
        · intro _ h; exact absurd h (by simp)
        · simp [ActionHandler.executeStepWithMultipleDialogs, hp]
        · simp [ActionHandler.executeStepWithMultipleDialogs, hp]
        · intro _ i hi
          have hg := processArrivals_getD steps arr 0 (Nat.zero_le _) i hi
          rw [hp] at hg
          simp only [ActionHandler.executeStepWithMultipleDialogs, hp]
          simpa using hg
      | ok u2 =>
        by_cases hc : count < steps.length
        · refine ⟨?_, ?_, ?_, ?_, ?_, ?_⟩
          · simp [ActionHandler.executeStepWithMultipleDialogs, hp, hc, List.indexOf_cons]
          · intro _
            simp [ActionHandler.executeStepWithMultipleDialogs, hp, hc, List.indexOf_cons]
          · intro _ _ harr
            simp only at harr
            have hcc : count = arr.length := by omega
            simp [ActionHandler.executeStepWithMultipleDialogs, hp, hc, hcc, harr]
          · simp [ActionHandler.executeStepWithMultipleDialogs, hp, hc]
          · simp [ActionHandler.executeStepWithMultipleDialogs, hp, hc]
          · intro _ i hi
            have hg := processArrivals_getD steps arr 0 (Nat.zero_le _) i hi
            rw [hp] at hg
            simp only [ActionHandler.executeStepWithMultipleDialogs, hp, hc, if_true, ite_true]
            simpa using hg
        · refine ⟨?_, ?_, ?_, ?_, ?_, ?_⟩
          · simp [ActionHandler.executeStepWithMultipleDialogs, hp, hc, List.indexOf_cons]
          · intro _
            simp [ActionHandler.executeStepWithMultipleDialogs, hp, hc, List.indexOf_cons]
          · intro _ _ harr
            simp only at harr
            exact absurd (by omega : count < steps.length) hc
          · simp [ActionHandler.executeStepWithMultipleDialogs, hp, hc]
          · simp [ActionHandler.executeStepWithMultipleDialogs, hp, hc]
          · intro _ i hi
            have hg := processArrivals_getD steps arr 0 (Nat.zero_le _) i hi
            rw [hp] at hg
            simp only [ActionHandler.executeStepWithMultipleDialogs, hp, hc, if_false, ite_false]
            simpa using hg
  · intro configs w
    obtain ⟨f, csett, arr⟩ := w
    rcases hp : processOrchArrivals configs 0 arr with ⟨count, fates⟩
    have hcount : count = arr.length := by
      have := processOrchArrivals_count configs arr 0
      rw [hp] at this
      simpa using this
    cases csett with
    | error e =>
      refine ⟨?_, ?_, ?_⟩
      · simp [DialogOrchestrator.executeWithMultipleDialogs, hp, List.indexOf_cons]
      · intro h; exact absurd h (by simp)
      · intro _
        simp [DialogOrchestrator.executeWithMultipleDialogs, hp]
    | ok u =>
      by_cases hc : count < configs.length
      · refine ⟨?_, ?_, ?_⟩
        · simp [DialogOrchestrator.executeWithMultipleDialogs, hp, hc, List.indexOf_cons]
        · intro _ _
          constructor <;> simp [DialogOrchestrator.executeWithMultipleDialogs, hp, hc]
        · intro hres
          exact absurd (by simp [DialogOrchestrator.executeWithMultipleDialogs, hp, hc]) hres
      · refine ⟨?_, ?_, ?_⟩
        · simp [DialogOrchestrator.executeWithMultipleDialogs, hp, hc, List.indexOf_cons]
        · intro _ harr
          simp only at harr
          exact absurd (by omega : count < configs.length) hc
        · intro _
          simp [DialogOrchestrator.executeWithMultipleDialogs, hp, hc]

/-- Two declared dialogs for the count-mismatch witness. -/
def mwSteps : List DialogStep :=
  [⟨some "confirm", "accept", none, false, 0⟩,
   ⟨some "prompt", "accept", some "hello", false, 0⟩]

/-- The click step triggering the multi-dialog unit in the witness. -/
def mwClick : ClickStep := ⟨⟨some "id", "multiBtn"⟩, false, 0⟩

/-- A world where only the first of the two declared dialogs fires. -/
def mwWorld : MultiWorld := ⟨Except.ok (), Except.ok (), ["confirm"]⟩

/-- C5 witness: the amended statement at concrete inputs — the
`ActionHandler` flow raises `Only 1/2 dialogs were handled` and still
removes its listener, having consumed the one arrival against the first
declared step; the orchestrator flow with a missing dialog hangs with its
listener still registered. -/
theorem multi_dialog_listener_protocol_witness :
    (ActionHandler.executeStepWithMultipleDialogs mwClick mwSteps mwWorld).trace.indexOf
      Ev.listenerOn = 0 ∧
    (ActionHandler.executeStepWithMultipleDialogs mwClick mwSteps mwWorld).result =
      Settled.done (Except.error "Only 1/2 dialogs were handled") ∧
    (ActionHandler.executeStepWithMultipleDialogs mwClick mwSteps mwWorld).listenerRemoved = true ∧
    (ActionHandler.executeStepWithMultipleDialogs mwClick mwSteps mwWorld).fates.getD 0
      (DialogFate.unresolved "") = DialogFate.accepted none ∧
    (DialogOrchestrator.executeWithMultipleDialogs hangConfigs hangWorld).result = Settled.hang ∧
    (DialogOrchestrator.executeWithMultipleDialogs hangConfigs hangWorld).listenerRemoved = false := by
  have h1 := multi_dialog_listener_protocol.1 mwClick mwSteps mwWorld
  have h2 := multi_dialog_listener_protocol.2 hangConfigs hangWorld
  have hhang := h2.2.1 rfl (by decide)
  exact ⟨h1.1, h1.2.2.1 rfl rfl (by decide), h1.2.2.2.1,
    h1.2.2.2.2.2 rfl 0 (by decide), hhang.1, hhang.2⟩

/-- C10: a dialog arriving after all declared dialogs have been handled is
auto-accepted by the `ActionHandler` standing listener — the handler
resolves it as an extra acceptance without advancing the counter — and the
flow still completes successfully rather than reporting a failure. -/
theorem extra_dialogs_auto_accepted
    (dialogSteps : List DialogStep) (clickStep : ClickStep) (w : MultiWorld)
    (c : Nat) (d : String) (hc : c ≥ dialogSteps.length)
    (hfind : w.find = Except.ok ()) (hclick : w.clickSettles = Except.ok ())
    (hlong : w.arrivals.length ≥ dialogSteps.length)
    (i : Nat) (hi : i < w.arrivals.length) (hpast : i ≥ dialogSteps.length) :
    multiDialogHandler dialogSteps c d = (c, DialogFate.acceptedExtra) ∧
    (ActionHandler.executeStepWithMultipleDialogs clickStep dialogSteps w).fates.getD i
      (DialogFate.unresolved "") = DialogFate.acceptedExtra ∧
    (ActionHandler.executeStepWithMultipleDialogs clickStep dialogSteps w).result =
      Settled.done (Except.ok ()) := by
  obtain ⟨f, csett, arr⟩ := w
  simp only at hfind hclick hlong hi hpast
  subst hfind
  subst hclick
  rcases hp : processArrivals dialogSteps 0 arr with ⟨count, fates⟩
  have hcnt : count = min arr.length dialogSteps.length := by
    have := processArrivals_count dialogSteps arr 0 (Nat.zero_le _)
    rw [hp] at this
    simpa using this
  have hc2 : ¬ count < dialogSteps.length := by omega
  refine ⟨?_, ?_, ?_⟩
  · unfold multiDialogHandler
    simp [hc]
  · have hg := processArrivals_getD dialogSteps arr 0 (Nat.zero_le _) i hi
    rw [hp] at hg
    simp only [ActionHandler.executeStepWithMultipleDialogs, hp, hc2, if_false, ite_false]
    rw [hg, if_neg (by omega)]
  · simp [ActionHandler.executeStepWithMultipleDialogs, hp, hc2]

/-- One declared dialog for the extra-dialog witness. -/
def xdSteps : List DialogStep := [⟨some "confirm", "accept", none, false, 0⟩]

/-- A world where a second, undeclared alert fires after the declared
confirm. -/
def xdWorld : MultiWorld := ⟨Except.ok (), Except.ok (), ["confirm", "alert"]⟩

/-- C10 witness: the theorem at concrete inputs — the listener while
saturated auto-accepts an alert, the second arrival's fate is the extra
acceptance, and the run succeeds. -/
theorem extra_dialogs_auto_accepted_witness :
    multiDialogHandler xdSteps 3 "alert" = (3, DialogFate.acceptedExtra) ∧
    (ActionHandler.executeStepWithMultipleDialogs mwClick xdSteps xdWorld).fates.getD 1
      (DialogFate.unresolved "") = DialogFate.acceptedExtra ∧
    (ActionHandler.executeStepWithMultipleDialogs mwClick xdSteps xdWorld).result =
      Settled.done (Except.ok ()) :=
  extra_dialogs_auto_accepted xdSteps mwClick xdWorld 3 "alert" (by decide) rfl rfl
    (by decide) 1 (by decide) (by decide)

/-- Characterization of the step loop, generalized over the starting
cursor: every record is `passed`; the record numbers are the consecutive
positions starting at the cursor plus one; on success one record exists per
step (a click-plus-dialog pair contributes two); on failure the records
stop right before the failing unit, whose outcome is the raised error. -/
theorem executeSteps_spec (outcome : Nat → Except String Unit) :
    ∀ (steps : List Step) (i : Nat),
      (∀ r ∈ (TestExecutor.executeSteps outcome steps i).1, r.status = "passed") ∧
      ((TestExecutor.executeSteps outcome steps i).1.map StepRecord.step =
        List.range' (i + 1) (TestExecutor.executeSteps outcome steps i).1.length) ∧
      ((TestExecutor.executeSteps outcome steps i).2 = Except.ok () →
        (TestExecutor.executeSteps outcome steps i).1.length = steps.length) ∧
      (∀ e, (TestExecutor.executeSteps outcome steps i).2 = Except.error e →
        (TestExecutor.executeSteps outcome steps i).1.length < steps.length ∧
        outcome (i + (TestExecutor.executeSteps outcome steps i).1.length) =
          Except.error e) := by
  have main : ∀ (n : Nat) (steps : List Step), steps.length ≤ n → ∀ (i : Nat),
      (∀ r ∈ (TestExecutor.executeSteps outcome steps i).1, r.status = "passed") ∧
      ((TestExecutor.executeSteps outcome steps i).1.map StepRecord.step =
        List.range' (i + 1) (TestExecutor.executeSteps outcome steps i).1.length) ∧
      ((TestExecutor.executeSteps outcome steps i).2 = Except.ok () →
        (TestExecutor.executeSteps outcome steps i).1.length = steps.length) ∧
      (∀ e, (TestExecutor.executeSteps outcome steps i).2 = Except.error e →
        (TestExecutor.executeSteps outcome steps i).1.length < steps.length ∧
        outcome (i + (TestExecutor.executeSteps outcome steps i).1.length) =
          Except.error e) := by
    intro n
    induction n with
    | zero =>
      intro steps hlen i
      match steps with
      | [] =>
        refine ⟨by simp [TestExecutor.executeSteps], by simp [TestExecutor.executeSteps], ?_, ?_⟩
        · intro _; simp [TestExecutor.executeSteps]
        · intro e he; simp [TestExecutor.executeSteps] at he
      | s :: rest => simp at hlen
    | succ n ih =>
      intro steps hlen i
      match steps with
      | [] =>
        refine ⟨by simp [TestExecutor.executeSteps], by simp [TestExecutor.executeSteps], ?_, ?_⟩
        · intro _; simp [TestExecutor.executeSteps]
        · intro e he; simp [TestExecutor.executeSteps] at he
      | [s] =>
        cases ho : outcome i with
        | error e =>
          refine ⟨?_, ?_, ?_, ?_⟩ <;> simp [TestExecutor.executeSteps, ho]
        | ok u =>
          refine ⟨?_, ?_, ?_, ?_⟩ <;> simp [TestExecutor.executeSteps, ho, List.range'_succ]
      | s :: s2 :: rest =>
        have hlen2 : rest.length ≤ n := by simp at hlen; omega
        have hlen1 : (s2 :: rest).length ≤ n := by simp at hlen; simp; omega
        by_cases hpair : s.type = "click" ∧ s2.type = "dialog"
        · cases ho : outcome i with
          | error e =>
            refine ⟨?_, ?_, ?_, ?_⟩ <;> simp [TestExecutor.executeSteps, hpair, ho]
          | ok u =>
            have IH := ih rest hlen2 (i + 2)
            rcases hrec : TestExecutor.executeSteps outcome rest (i + 2) with ⟨rs, r⟩
            rw [hrec] at IH
            have hred : TestExecutor.executeSteps outcome (s :: s2 :: rest) i =
                (⟨i + 1, "passed"⟩ :: ⟨i + 2, "passed"⟩ :: rs, r) := by
              simp [TestExecutor.executeSteps, hpair, ho, hrec]
            refine ⟨?_, ?_, ?_, ?_⟩
            · intro x hx
              rw [hred] at hx
              simp at hx
              rcases hx with hx | hx | hx
              · rw [hx]
              · rw [hx]
              · exact IH.1 x hx
            · rw [hred]
              simp only [List.map_cons, List.length_cons]
              have hm : List.map StepRecord.step rs = List.range' (i + 2 + 1) rs.length := IH.2.1
              rw [hm]
              rw [List.range'_succ (i + 1) (rs.length + 1) 1,
                List.range'_succ (i + 1 + 1) rs.length 1]
            · intro hok
              rw [hred] at hok
              have hr : r = Except.ok () := hok
              have := IH.2.2.1 hr
              rw [hred]
              simp only [List.length_cons, List.length_cons]
              simp at this
              simp [this]
            · intro e he
              rw [hred] at he
              have hr : r = Except.error e := he
              obtain ⟨hl, ho2⟩ := IH.2.2.2 e hr
              rw [hred]
              simp only [List.length_cons]
              refine ⟨by simp at hl ⊢; omega, ?_⟩
              have h4 : i + (rs.length + 1 + 1) = i + 2 + rs.length := by omega
              rw [h4]
              simpa using ho2
        · cases ho : outcome i with
          | error e =>
            refine ⟨?_, ?_, ?_, ?_⟩ <;> simp [TestExecutor.executeSteps, hpair, ho]
          | ok u =>
            have IH := ih (s2 :: rest) hlen1 (i + 1)
            rcases hrec : TestExecutor.executeSteps outcome (s2 :: rest) (i + 1) with ⟨rs, r⟩
            rw [hrec] at IH
            have hred : TestExecutor.executeSteps outcome (s :: s2 :: rest) i =
                (⟨i + 1, "passed"⟩ :: rs, r) := by
              simp [TestExecutor.executeSteps, hpair, ho, hrec]
            refine ⟨?_, ?_, ?_, ?_⟩
            · intro x hx
              rw [hred] at hx
              simp at hx
              rcases hx with hx | hx
              · rw [hx]
              · exact IH.1 x hx
            · rw [hred]
              simp only [List.map_cons, List.length_cons]
              have hm : List.map StepRecord.step rs = List.range' (i + 1 + 1) rs.length := IH.2.1
              rw [hm]
              rw [List.range'_succ (i + 1) rs.length 1]
            · intro hok
              rw [hred] at hok
              have hr : r = Except.ok () := hok
              have := IH.2.2.1 hr
              rw [hred]
              simp at this
              simp [this]
            · intro e he
              rw [hred] at he
              have hr : r = Except.error e := he
              obtain ⟨hl, ho2⟩ := IH.2.2.2 e hr
              rw [hred]
              simp only [List.length_cons]
              refine ⟨by simp at hl ⊢; omega, ?_⟩
              have h4 : i + (rs.length + 1) = i + 1 + rs.length := by omega
              rw [h4]
              simpa using ho2
  intro steps i
  exact main steps.length steps le_rfl i

/-- C9: the per-step outcome records only ever hold `passed` entries,
numbered consecutively from 1 (a successful click-plus-dialog pair
appending two); on a fully successful run there is one record per step, and
when a unit raises an error the loop stops without appending a record for
it, so the record count equals the number of steps completed before the
failure and the failing unit sits exactly at that position. -/
theorem step_records_passed_prefix (outcome : Nat → Except String Unit) (steps : List Step) :
    (∀ r ∈ (TestExecutor.executeSteps outcome steps 0).1, r.status = "passed") ∧
    ((TestExecutor.executeSteps outcome steps 0).1.map StepRecord.step =
      List.range' 1 (TestExecutor.executeSteps outcome steps 0).1.length) ∧
    ((TestExecutor.executeSteps outcome steps 0).2 = Except.ok () →
      (TestExecutor.executeSteps outcome steps 0).1.length = steps.length) ∧
    (∀ e, (TestExecutor.executeSteps outcome steps 0).2 = Except.error e →
      (TestExecutor.executeSteps outcome steps 0).1.length < steps.length ∧
      outcome (TestExecutor.executeSteps outcome steps 0).1.length = Except.error e) := by
  have h := executeSteps_spec outcome steps 0
  simpa using h

/-- The unit outcomes for the step-record witness: the unit starting at
index 2 fails, everything else succeeds. -/
def recOutcome : Nat → Except String Unit :=
  fun i => if i = 2 then Except.error "boom" else Except.ok ()

/-- Four steps whose first two form a click-plus-dialog pair. -/
def recSteps : List Step := [⟨"click"⟩, ⟨"dialog"⟩, ⟨"input"⟩, ⟨"select"⟩]

/-- C9 witness: the theorem at a concrete run — the pair completes (two
records), the third step fails, so exactly two consecutively numbered
records exist and the failing unit sits at position 2. -/
theorem step_records_passed_prefix_witness :
    ((TestExecutor.executeSteps recOutcome recSteps 0).1.map StepRecord.step =
      List.range' 1 (TestExecutor.executeSteps recOutcome recSteps 0).1.length) ∧
    (TestExecutor.executeSteps recOutcome recSteps 0).1.length < recSteps.length ∧
    recOutcome (TestExecutor.executeSteps recOutcome recSteps 0).1.length =
      Except.error "boom" := by
  have h := step_records_passed_prefix recOutcome recSteps
  exact ⟨h.2.1, (h.2.2.2 "boom" rfl).1, (h.2.2.2 "boom" rfl).2⟩

/-- A configuration with only the failure capture enabled. -/
def failCfg : ExecConfig := ⟨false, ⟨false, false, true, false⟩⟩

/-- A run where everything succeeds except the final assertion, and the
failure-path screenshot capture itself throws. -/
def failWorld : ExecWorld :=
  { nav := Except.ok (), stepOutcome := fun _ => Except.ok (),
    shotBefore := Except.ok "before.png", submit := Except.ok (),
    shotAfter := Except.ok "after.png",
    assertions := Except.error "Assertion failed: expected Welcome but got Error",
    shotFailure := Except.error "screenshot failed: disk full",
    dialogShots := [] }

/-- The test case for the capture-failure scenario. -/
def failCase : TestCase := ⟨"Login Test", []⟩

/-- C7 counterexample: with `captureOnFailure` enabled, an error thrown by
the failure-path screenshot capture is not caught by the Test Case Runner —
`executeTestCase` itself completes exceptionally with the capture error,
contradicting the claim that the failure-path capture never throws out of
the runner. -/
theorem failure_capture_error_escapes_runner_cex :
    TestExecutor.executeTestCase failCfg failWorld failCase 0 false =
      Except.error "screenshot failed: disk full" ∧
    failCfg.shots.captureOnFailure = true ∧
    failWorld.shotFailure = Except.error "screenshot failed: disk full" := by
  exact ⟨rfl, rfl, rfl⟩

/-- C7 (amended): screenshot-capture errors are not caught locally by the
Test Case Runner.  When the body fails and `captureOnFailure` is set, an
error from the failure-path capture propagates out of the runner verbatim
(first conjunct).  The before-submit capture sits inside the runner's
`try`, so its error is handled like any step error: the test is marked
`failed` with the capture error recorded as the test's error message
(second conjunct) — the capture outcome does affect pass/fail. -/
theorem screenshot_capture_error_handling :
    (∀ (cfg : ExecConfig) (w : ExecWorld) (tc : TestCase) (lvl : Nat) (skip : Bool)
      (e se : String),
      (TestExecutor.runBody cfg w tc skip).2.2 = Except.error e →
      cfg.shots.captureOnFailure = true →
      w.shotFailure = Except.error se →
      TestExecutor.executeTestCase cfg w tc lvl skip = Except.error se) ∧
    (∀ (cfg : ExecConfig) (w : ExecWorld) (tc : TestCase) (lvl : Nat) (e : String),
      cfg.shots.captureBeforeSubmit = true →
      cfg.shots.captureOnFailure = false →
      cfg.shots.captureDialogs = false →
      cfg.stopOnFailure = false →
      (TestExecutor.executeSteps w.stepOutcome tc.steps 0).2 = Except.ok () →
      w.shotBefore = Except.error e →
      TestExecutor.executeTestCase cfg w tc lvl true =
        Except.ok
          { name := tc.name, status := "failed",
            steps := (TestExecutor.executeSteps w.stepOutcome tc.steps 0).1,
            error := some e, screenshots := [], hierarchyLevel := lvl,
            skippedNavigation := true }) := by
  constructor
  · intro cfg w tc lvl skip e se hbody hcap hshot
    rcases hrb : TestExecutor.runBody cfg w tc skip with ⟨recs, shots, res⟩
    rw [hrb] at hbody
    have hres : res = Except.error e := hbody
    subst hres
    simp [TestExecutor.executeTestCase, hrb, hcap, hshot]
  · intro cfg w tc lvl e hb hcap hcd hstop hsteps hshot
    have hbody : TestExecutor.runBody cfg w tc true =
        ((TestExecutor.executeSteps w.stepOutcome tc.steps 0).1, [], Except.error e) := by
      unfold TestExecutor.runBody
      rcases hse : TestExecutor.executeSteps w.stepOutcome tc.steps 0 with ⟨recs, sres⟩
      rw [hse] at hsteps
      have hsr : sres = Except.ok () := hsteps
      subst hsr
      simp [hb, hshot, Except.map]
    simp [TestExecutor.executeTestCase, hbody, hcap, hstop, hcd]

/-- A configuration with only the before-submit capture enabled. -/
def beforeCfg : ExecConfig := ⟨false, ⟨true, false, false, false⟩⟩

/-- A run where only the before-submit screenshot capture throws. -/
def beforeWorld : ExecWorld :=
  { nav := Except.ok (), stepOutcome := fun _ => Except.ok (),
    shotBefore := Except.error "capture failed: page closed",
    submit := Except.ok (), shotAfter := Except.ok "after.png",
    assertions := Except.ok (), shotFailure := Except.ok "failure.png",
    dialogShots := [] }

/-- A one-step test case for the before-submit capture scenario. -/
def beforeCase : TestCase := ⟨"Form Test", [⟨"input"⟩]⟩

/-- C7 witness: the amended statement at concrete inputs — a before-submit
capture error flips the test to `failed` with the capture error recorded,
and a failure-path capture error escapes the runner as the run's own
exception. -/
theorem screenshot_capture_error_handling_witness :
    TestExecutor.executeTestCase beforeCfg beforeWorld beforeCase 0 true =
      Except.ok
        { name := "Form Test", status := "failed", steps := [⟨1, "passed"⟩],
          error := some "capture failed: page closed", screenshots := [],
          hierarchyLevel := 0, skippedNavigation := true } ∧
    TestExecutor.executeTestCase failCfg failWorld failCase 0 false =
      Except.error "screenshot failed: disk full" := by
  constructor
  · exact screenshot_capture_error_handling.2 beforeCfg beforeWorld beforeCase 0
      "capture failed: page closed" rfl rfl rfl rfl rfl rfl
  · exact screenshot_capture_error_handling.1 failCfg failWorld failCase 0 false
      "Assertion failed: expected Welcome but got Error" "screenshot failed: disk full"
      rfl rfl rfl

/-- The status recorded for a node whose case execution fails: the
returned status on a normal return, `failed` for the synthesized entry on
a thrown error. -/
def failedStatusOf (c : CaseExec) : String :=
  match c with
  | CaseExec.ret st => st
  | CaseExec.thr _ => "failed"

/-- C2: when a node's own test case fails — a non-`passed` result or a
thrown error — the walker returns `false`, executes no descendant's test
case (the executed list is exactly the parent), and the run-wide result
list gains exactly one entry: the failed parent, with zero entries for any
descendant.  The freshness hypothesis keeps the thrown-error path from
folding its synthesized entry into an older same-named entry. -/
theorem parent_failure_gates_children
    (exec : TestCase → CaseExec) (stopOnChildFailure : Bool) (name : String)
    (tc : TestCase) (children : List TestNode) (results : List ResultEntry)
    (hfail : failedStatusOf (exec tc) ≠ "passed")
    (hfresh : ∀ r ∈ results, r.name ≠ name) :
    TestEngine.executeYamlTestNode exec stopOnChildFailure
        (TestNode.node name tc children) results =
      (results ++ [⟨name, failedStatusOf (exec tc)⟩], [name], false) := by
  cases hex : exec tc with
  | ret st =>
    rw [hex] at hfail
    simp only [failedStatusOf] at hfail
    simp [TestEngine.executeYamlTestNode, hex, hfail, failedStatusOf]
  | thr m =>
    have hany : results.any (fun r => r.name = name) = false := by
      rw [List.any_eq_false]
      intro r hr
      simpa using hfresh r hr
    simp [TestEngine.executeYamlTestNode, hex, hany, failedStatusOf]

/-- An execution oracle under which every test case fails normally. -/
def gateExec : TestCase → CaseExec := fun _ => CaseExec.ret "failed"

/-- A parent node with one child for the gating witness. -/
def gateTree : TestNode :=
  TestNode.node "Parent" ⟨"parent-case", []⟩ [TestNode.node "Child" ⟨"child-case", []⟩ []]

/-- C2 witness: the theorem at a concrete two-node tree — the failing
parent contributes the single result entry, only the parent's case is
executed, and the walk returns `false`. -/
theorem parent_failure_gates_children_witness :
    TestEngine.executeYamlTestNode gateExec false gateTree [] =
      ([⟨"Parent", "failed"⟩], ["Parent"], false) :=
  parent_failure_gates_children gateExec false "Parent" ⟨"parent-case", []⟩
    [TestNode.node "Child" ⟨"child-case", []⟩ []] [] (by decide) (by simp)
